import Mathlib

/-!
Verification of the real-time collaboration core of the repository
(`backend/app/services/websocket_manager.py`, `backend/app/routers/websocket.py`,
`backend/app/schemas/websocket.py`).

Modelling conventions:
* A WebSocket connection (a `Session`) is identified by a `Nat`; Python compares
  `WebSocket` objects by identity, which the `Nat` identity models.
* `WebSocketManager.active_connections : Dict[str, List[WebSocket]]` is modelled
  as an association list `Registry := List (String × List Nat)`; `lookup` finds
  the first entry with the given key, `setEntry` replaces it in place (or appends
  a fresh entry at the end, like Python dict insertion), `eraseEntry` deletes it.
* The outcome of `await connection.send_text(...)` during a broadcast is modelled
  by a function `fails : Nat → Bool` saying which recipients' sends raise; replies
  sent directly to the current client (`websocket.send_text` in the router) are
  recorded as send events without a failure model, since the router has no
  handler for their failure on the paths the claims are about.
* Database effects (`update_room_code`) are modelled by their observable outcome
  for the one call a step makes (`StoreBehavior`), and the number of calls the
  step performs is recorded in `StepResult.storeCalls`.
-/

namespace CollabWS

/-- A registered WebSocket connection, identified by identity. -/
abbrev Session := Nat

/-- The manager's `active_connections` dictionary: room id to list of sessions. -/
abbrev Registry := List (String × List Session)

/-- Python `room_id in self.active_connections` / `self.active_connections[room_id]`:
first entry with the given key. -/
def lookup : Registry → String → Option (List Session)
  | [], _ => none
  | (k, v) :: t, r => if k = r then some v else lookup t r

/-- Dictionary write `self.active_connections[room_id] = l`: replace the entry in
place if present, append a new entry otherwise. -/
def setEntry : Registry → String → List Session → Registry
  | [], r, l => [(r, l)]
  | (k, v) :: t, r, l => if k = r then (r, l) :: t else (k, v) :: setEntry t r l

/-- Dictionary delete `del self.active_connections[room_id]`. -/
def eraseEntry : Registry → String → Registry
  | [], _ => []
  | (k, v) :: t, r => if k = r then eraseEntry t r else (k, v) :: eraseEntry t r

/-- The sessions currently registered for room `r` (empty when the room has no entry). -/
def members (st : Registry) (r : String) : List Session :=
  (lookup st r).getD []

/-- `WebSocketManager.connect` (websocket_manager.py:28-45), registry part: create
the room's list if absent, then append the session.  (The preceding
`await websocket.accept()` is a transport action with no registry effect.) -/
def connect (r : String) (ws : Session) (st : Registry) : Registry :=
  let cur := (lookup st r).getD []
  setEntry st r (cur ++ [ws])

/-- `WebSocketManager.disconnect` (websocket_manager.py:47-68): if the room has an
entry, remove the first occurrence of the session if present (`list.remove`),
then delete the entry if it became empty. -/
def disconnect (r : String) (ws : Session) (st : Registry) : Registry :=
  match lookup st r with
  | none => st
  | some l =>
      let l' := if ws ∈ l then l.erase ws else l
      if l'.length = 0 then eraseEntry st r else setEntry st r l'

/-- Messages the server sends over a websocket (the dictionaries passed to
`send_text` after `json.dumps`), kept structured: the claims compare their
fields, and `json.dumps` is injective on them. -/
inductive OutMsg where
  | codeUpdate (code : String) (timestamp : Option Int)
  | initialState (code : String) (roomId : String)
  | errorMsg (message : String)
deriving DecidableEq, Repr

/-- `WebSocketManager.broadcast` (websocket_manager.py:70-103): no-op on an absent
room; otherwise attempt a send to every listed connection other than `exclude`,
collect the connections whose send raised, and `disconnect` each of them.
Returns the new registry together with the successful deliveries in iteration
order (recipient paired with the message). -/
def broadcast (r : String) (msg : OutMsg) (excl : Option Session)
    (fails : Session → Bool) (st : Registry) : Registry × List (Session × OutMsg) :=
  match lookup st r with
  | none => (st, [])
  | some conns =>
      let targets := conns.filter (fun c => decide (some c ≠ excl))
      let delivered := targets.filter (fun c => !fails c)
      let disconnectedWs := targets.filter (fun c => fails c)
      (disconnectedWs.foldl (fun s w => disconnect r w s) st,
       delivered.map (fun c => (c, msg)))

/-! ### Basic lookup lemmas -/

theorem lookup_setEntry_self (st : Registry) (r : String) (l : List Session) :
    lookup (setEntry st r l) r = some l := by
  induction st with
  | nil => simp [setEntry, lookup]
  | cons p t ih =>
      obtain ⟨k, v⟩ := p
      by_cases h : k = r
      · simp [setEntry, h, lookup]
      · simp [setEntry, h, lookup, ih]

theorem lookup_setEntry_ne (st : Registry) (r r' : String) (l : List Session)
    (h : r' ≠ r) : lookup (setEntry st r l) r' = lookup st r' := by
  induction st with
  | nil => simp [setEntry, lookup, Ne.symm h]
  | cons p t ih =>
      obtain ⟨k, v⟩ := p
      by_cases hk : k = r
      · subst hk
        simp [setEntry, lookup, Ne.symm h]
      · simp [setEntry, hk, lookup, ih]

theorem lookup_eraseEntry_self (st : Registry) (r : String) :
    lookup (eraseEntry st r) r = none := by
  induction st with
  | nil => simp [eraseEntry, lookup]
  | cons p t ih =>
      obtain ⟨k, v⟩ := p
      by_cases h : k = r
      · simpa [eraseEntry, h] using ih
      · simpa [eraseEntry, lookup, h] using ih

theorem lookup_eraseEntry_ne (st : Registry) (r r' : String) (h : r' ≠ r) :
    lookup (eraseEntry st r) r' = lookup st r' := by
  induction st with
  | nil => simp [eraseEntry, lookup]
  | cons p t ih =>
      obtain ⟨k, v⟩ := p
      by_cases hk : k = r
      · subst hk
        simpa [eraseEntry, lookup, Ne.symm h] using ih
      · simp [eraseEntry, lookup, hk, ih]

theorem lookup_mem (st : Registry) (r : String) (l : List Session)
    (h : lookup st r = some l) : (r, l) ∈ st := by
  induction st with
  | nil => simp [lookup] at h
  | cons p t ih =>
      obtain ⟨k, v⟩ := p
      by_cases hk : k = r
      · subst hk
        simp [lookup] at h
        simp [h]
      · simp [lookup, hk] at h
        exact List.mem_cons_of_mem _ (ih h)

theorem setEntry_of_lookup_eq (st : Registry) (r : String) (l : List Session)
    (h : lookup st r = some l) : setEntry st r l = st := by
  induction st with
  | nil => simp [lookup] at h
  | cons p t ih =>
      obtain ⟨k, v⟩ := p
      by_cases hk : k = r
      · subst hk
        simp [lookup] at h
        simp [setEntry, h]
      · simp [lookup, hk] at h
        simp [setEntry, hk, ih h]

theorem lookup_eq_none_iff (st : Registry) (r : String) :
    lookup st r = none ↔ ∀ p ∈ st, p.1 ≠ r := by
  induction st with
  | nil => simp [lookup]
  | cons p t ih =>
      obtain ⟨k, v⟩ := p
      by_cases hk : k = r
      · simp [lookup, hk]
      · simp [lookup, hk, ih]

theorem setEntry_of_lookup_none (st : Registry) (r : String) (l : List Session)
    (h : lookup st r = none) : setEntry st r l = st ++ [(r, l)] := by
  induction st with
  | nil => simp [setEntry]
  | cons p t ih =>
      obtain ⟨k, v⟩ := p
      by_cases hk : k = r
      · simp [lookup, hk] at h
      · simp [lookup, hk] at h
        simp [setEntry, hk, ih h]

theorem eraseEntry_of_lookup_none (st : Registry) (r : String)
    (h : lookup st r = none) : eraseEntry st r = st := by
  induction st with
  | nil => simp [eraseEntry]
  | cons p t ih =>
      obtain ⟨k, v⟩ := p
      by_cases hk : k = r
      · simp [lookup, hk] at h
      · simp [lookup, hk] at h
        simp [eraseEntry, hk, ih h]

theorem mem_setEntry (st : Registry) (r : String) (l : List Session)
    (p : String × List Session) (hp : p ∈ setEntry st r l) :
    p = (r, l) ∨ p ∈ st := by
  induction st with
  | nil => simpa [setEntry] using hp
  | cons q t ih =>
      obtain ⟨k, v⟩ := q
      by_cases hk : k = r
      · simp [setEntry, hk] at hp
        rcases hp with h | h
        · exact Or.inl h
        · exact Or.inr (List.mem_cons_of_mem _ h)
      · simp [setEntry, hk] at hp
        rcases hp with h | h
        · exact Or.inr (by simp [h])
        · rcases ih h with h' | h'
          · exact Or.inl h'
          · exact Or.inr (List.mem_cons_of_mem _ h')

theorem mem_eraseEntry (st : Registry) (r : String) (p : String × List Session)
    (hp : p ∈ eraseEntry st r) : p ∈ st := by
  induction st with
  | nil => simp [eraseEntry] at hp
  | cons q t ih =>
      obtain ⟨k, v⟩ := q
      by_cases hk : k = r
      · simp [eraseEntry, hk] at hp
        exact List.mem_cons_of_mem _ (ih hp)
      · simp [eraseEntry, hk] at hp
        rcases hp with h | h
        · simp [h]
        · exact List.mem_cons_of_mem _ (ih h)

theorem lookup_append_of_none (st t : Registry) (r : String)
    (h : lookup st r = none) : lookup (st ++ t) r = lookup t r := by
  induction st with
  | nil => simp
  | cons p s ih =>
      obtain ⟨k, v⟩ := p
      by_cases hk : k = r
      · simp [lookup, hk] at h
      · simp [lookup, hk] at h ⊢
        exact ih h

theorem eraseEntry_append (st t : Registry) (r : String) :
    eraseEntry (st ++ t) r = eraseEntry st r ++ eraseEntry t r := by
  induction st with
  | nil => simp [eraseEntry]
  | cons p s ih =>
      obtain ⟨k, v⟩ := p
      by_cases hk : k = r
      · simp [eraseEntry, hk, ih]
      · simp [eraseEntry, hk, ih]

/-! ### Members of a room under the operations -/

theorem members_of_lookup (st : Registry) (r : String) (l : List Session)
    (h : lookup st r = some l) : members st r = l := by
  simp [members, h]

theorem lookup_isSome_of_members_ne (st : Registry) (r : String)
    (h : members st r ≠ []) : (lookup st r).isSome := by
  cases hl : lookup st r with
  | none => exact absurd (by simp [members, hl]) h
  | some l => simp

theorem members_connect_self (st : Registry) (r : String) (ws : Session) :
    members (connect r ws st) r = members st r ++ [ws] := by
  simp [connect, members, lookup_setEntry_self]

theorem disconnect_eq (st : Registry) (r : String) (ws : Session) (l : List Session)
    (h : lookup st r = some l) :
    disconnect r ws st =
      if l.erase ws = [] then eraseEntry st r else setEntry st r (l.erase ws) := by
  have hguard : (if ws ∈ l then l.erase ws else l) = l.erase ws := by
    by_cases hw : ws ∈ l
    · simp [hw]
    · simp [hw, List.erase_of_not_mem hw]
  simp only [disconnect, h, hguard, List.length_eq_zero]

theorem members_disconnect_self (st : Registry) (r : String) (ws : Session) :
    members (disconnect r ws st) r = (members st r).erase ws := by
  cases h : lookup st r with
  | none => simp [disconnect, h, members]
  | some l =>
      rw [disconnect_eq st r ws l h]
      by_cases hz : l.erase ws = []
      · simp [hz, members, h, lookup_eraseEntry_self]
      · simp [hz, members, h, lookup_setEntry_self]

theorem members_foldl_disconnect (r : String) :
    ∀ (D : List Session) (st : Registry),
      members (D.foldl (fun s w => disconnect r w s) st) r =
        D.foldl (fun acc w => acc.erase w) (members st r)
  | [], st => by simp
  | d :: D, st => by
      simp only [List.foldl_cons]
      rw [members_foldl_disconnect r D (disconnect r d st), members_disconnect_self]

theorem count_foldl_erase (k : Session) :
    ∀ (D l : List Session),
      (D.foldl (fun acc w => acc.erase w) l).count k = l.count k - D.count k
  | [], l => by simp
  | d :: D, l => by
      have ih := count_foldl_erase k D (l.erase d)
      simp only [List.foldl_cons] at ih ⊢
      rw [ih, List.count_erase, List.count_cons]
      cases hd : d == k
      all_goals simp
      all_goals omega

/-! ### The "no empty room entry" invariant -/

/-- Every room entry in the registry holds at least one session. -/
def EntriesNonempty (st : Registry) : Prop := ∀ p ∈ st, p.2 ≠ []

theorem entriesNonempty_connect (st : Registry) (r : String) (ws : Session)
    (h : EntriesNonempty st) : EntriesNonempty (connect r ws st) := by
  intro p hp
  rcases mem_setEntry st r _ p hp with h' | h'
  · subst h'; simp
  · exact h p h'

theorem entriesNonempty_disconnect (st : Registry) (r : String) (ws : Session)
    (h : EntriesNonempty st) : EntriesNonempty (disconnect r ws st) := by
  intro p hp
  cases hl : lookup st r with
  | none => simp only [disconnect, hl] at hp; exact h p hp
  | some l =>
      rw [disconnect_eq st r ws l hl] at hp
      by_cases hz : l.erase ws = []
      · rw [if_pos hz] at hp
        exact h p (mem_eraseEntry st r p hp)
      · rw [if_neg hz] at hp
        rcases mem_setEntry st r _ p hp with h' | h'
        · subst h'
          exact hz
        · exact h p h'

theorem entriesNonempty_foldl_disconnect (r : String) :
    ∀ (D : List Session) (st : Registry), EntriesNonempty st →
      EntriesNonempty (D.foldl (fun s w => disconnect r w s) st)
  | [], _, h => h
  | d :: D, st, h => by
      simp only [List.foldl_cons]
      exact entriesNonempty_foldl_disconnect r D _ (entriesNonempty_disconnect st r d h)

theorem entriesNonempty_broadcast (st : Registry) (r : String) (msg : OutMsg)
    (excl : Option Session) (fails : Session → Bool) (h : EntriesNonempty st) :
    EntriesNonempty (broadcast r msg excl fails st).1 := by
  cases hl : lookup st r with
  | none => simpa [broadcast, hl] using h
  | some l =>
      simp only [broadcast, hl]
      exact entriesNonempty_foldl_disconnect r _ st h

/-! ### Operation sequences over the registry (for reachable-state invariants) -/

/-- One registry-mutating call on the manager. -/
inductive Op where
  | connectOp (r : String) (ws : Session)
  | disconnectOp (r : String) (ws : Session)
  | broadcastOp (r : String) (msg : OutMsg) (excl : Option Session) (fails : Session → Bool)

/-- Apply one operation to the registry (the broadcast's send log is discarded). -/
def applyOp (st : Registry) : Op → Registry
  | .connectOp r ws => connect r ws st
  | .disconnectOp r ws => disconnect r ws st
  | .broadcastOp r msg excl fails => (broadcast r msg excl fails st).1

/-- Run a sequence of operations from the manager's initial empty dictionary
(`self.active_connections = {}` in `__init__`). -/
def runOps (ops : List Op) : Registry := ops.foldl applyOp []

theorem entriesNonempty_applyOp (st : Registry) (op : Op)
    (h : EntriesNonempty st) : EntriesNonempty (applyOp st op) := by
  cases op with
  | connectOp r ws => exact entriesNonempty_connect st r ws h
  | disconnectOp r ws => exact entriesNonempty_disconnect st r ws h
  | broadcastOp r msg excl fails => exact entriesNonempty_broadcast st r msg excl fails h

theorem entriesNonempty_runOps (ops : List Op) : EntriesNonempty (runOps ops) := by
  suffices h : ∀ st, EntriesNonempty st → EntriesNonempty (ops.foldl applyOp st) by
    exact h [] (by intro p hp; simp at hp)
  induction ops with
  | nil => exact fun st h => h
  | cons op ops ih =>
      intro st h
      exact ih (applyOp st op) (entriesNonempty_applyOp st op h)

/-! ### The wire schema and the endpoint's per-message dispatch -/

/-- A JSON value as far as the schema distinguishes them: strings, integers,
null, and everything else (arrays, objects, floats, booleans), which the
modelled fields all reject. -/
inductive JVal where
  | jstr (s : String)
  | jint (n : Int)
  | jnull
  | jother
deriving DecidableEq, Repr

/-- A JSON object: association list of fields, as produced by `json.loads`. -/
abbrev JObj := List (String × JVal)

/-- Field access on a parsed JSON object. -/
def getField (o : JObj) (k : String) : Option JVal :=
  (o.find? (fun p => p.1 = k)).map (fun p => p.2)

/-- The validated form of `WebSocketMessage` (schemas/websocket.py:5-12):
`type` required, the four other fields optional. -/
structure WSMessage where
  type : String
  code : Option String
  timestamp : Option Int
  message : Option String
  roomId : Option String
deriving DecidableEq, Repr

/-- Validation of an `Optional[str]` field: absent or null gives `None`, a
string gives the string, anything else is a validation error. -/
def optStrField : Option JVal → Option (Option String)
  | none => some none
  | some (.jstr s) => some (some s)
  | some .jnull => some none
  | some _ => none

/-- Validation of an `Optional[int]` field, analogously. -/
def optIntField : Option JVal → Option (Option Int)
  | none => some none
  | some (.jint n) => some (some n)
  | some .jnull => some none
  | some _ => none

/-- `WebSocketMessage(**message_dict)` (schemas/websocket.py:5-12): pydantic
validation of a parsed JSON object.  `type` must be present as a string; the
optional fields must be of their declared type when present; fields with other
keys are ignored (pydantic's default `extra` behaviour).  Lax numeric-string
coercions of the pydantic runtime are not modelled; no claim depends on them. -/
def validateMsg (o : JObj) : Option WSMessage :=
  match getField o "type" with
  | some (.jstr t) =>
      match optStrField (getField o "code"), optIntField (getField o "timestamp"),
          optStrField (getField o "message"), optStrField (getField o "roomId") with
      | some c, some ts, some m, some rid => some ⟨t, c, ts, m, rid⟩
      | _, _, _, _ => none
  | _ => none

/-- One frame received by the endpoint's loop, after `json.loads` has run:
either the text was not valid JSON (`json.JSONDecodeError`), or it parsed to a
non-object value (so `WebSocketMessage(**...)` raises `TypeError`), or it parsed
to a JSON object. -/
inductive Payload where
  | invalidJson
  | jsonNonObject
  | jsonObject (o : JObj)

/-- Observable outcome of the one `update_room_code` call a step may make:
returns the updated room, returns `None`, or raises. -/
inductive StoreBehavior where
  | ok
  | returnsNone
  | raises
deriving DecidableEq, Repr

/-- Result of processing one received frame: the registry afterwards, the send
events performed (recipient, message) in order, how many times
`update_room_code` was called, and whether the receive loop terminated. -/
structure StepResult where
  st : Registry
  sends : List (Session × OutMsg)
  storeCalls : Nat
  closed : Bool
deriving Repr

/-- One iteration of the endpoint's receive loop (routers/websocket.py:47-136)
for a frame received from `sender` in room `r`.  Mirrors the dispatch: invalid
JSON and schema validation errors get a local `error` reply; a valid JSON
non-object raises `TypeError`, which only the outer `except Exception` catches,
disconnecting the sender and ending the loop; `code_update` without `code` gets
an `error` reply with no store call; otherwise the store is called once and on
success the update is broadcast to the room excluding the sender; unknown types
get an `error` reply. -/
def handleMessage (r : String) (sender : Session) (p : Payload)
    (store : StoreBehavior) (fails : Session → Bool) (st : Registry) : StepResult :=
  match p with
  | .invalidJson => ⟨st, [(sender, .errorMsg "Invalid JSON format")], 0, false⟩
  | .jsonNonObject => ⟨disconnect r sender st, [], 0, true⟩
  | .jsonObject o =>
      match validateMsg o with
      | none => ⟨st, [(sender, .errorMsg "Invalid message format")], 0, false⟩
      | some m =>
          if m.type = "code_update" then
            match m.code with
            | none =>
                ⟨st, [(sender, .errorMsg "Missing 'code' field in code_update message")],
                  0, false⟩
            | some c =>
                match store with
                | .raises => ⟨st, [(sender, .errorMsg "Database error occurred")], 1, false⟩
                | .returnsNone =>
                    ⟨st, [(sender, .errorMsg "Failed to update room code")], 1, false⟩
                | .ok =>
                    let b := broadcast r (.codeUpdate c m.timestamp) (some sender) fails st
                    ⟨b.1, b.2, 1, false⟩
          else ⟨st, [(sender, .errorMsg ("Unknown message type: " ++ m.type))], 0, false⟩

/-- Result of the connection-establishment phase: the registry afterwards, the
close signal sent when the connection was refused, and whether it was accepted. -/
structure ConnectResult where
  st : Registry
  closeSignal : Option (Nat × String)
  accepted : Bool
deriving DecidableEq, Repr

/-- The connection-validation prefix of `websocket_endpoint`
(routers/websocket.py:33-40): if `room_exists` returns false, close with code
4004 and reason "Room not found" and return without creating a session;
otherwise accept and register the connection. -/
def handleConnect (roomExists : Bool) (r : String) (ws : Session)
    (st : Registry) : ConnectResult :=
  if roomExists then ⟨connect r ws st, none, true⟩
  else ⟨st, some (4004, "Room not found"), false⟩

/-! ### Broadcast lemmas -/

theorem broadcast_eq (st : Registry) (r : String) (msg : OutMsg) (excl : Option Session)
    (fails : Session → Bool) (l : List Session) (h : lookup st r = some l) :
    broadcast r msg excl fails st =
      (((l.filter (fun c => decide (some c ≠ excl))).filter (fun c => fails c)).foldl
          (fun s w => disconnect r w s) st,
        ((l.filter (fun c => decide (some c ≠ excl))).filter (fun c => !fails c)).map
          (fun c => (c, msg))) := by
  simp only [broadcast, h]

theorem mem_broadcast_sends (st : Registry) (r : String) (msg : OutMsg)
    (excl : Option Session) (fails : Session → Bool) (l : List Session)
    (h : lookup st r = some l) (c : Session) (hc : c ∈ l) (hne : some c ≠ excl)
    (hf : fails c = false) : (c, msg) ∈ (broadcast r msg excl fails st).2 := by
  rw [broadcast_eq st r msg excl fails l h]
  refine List.mem_map.2 ⟨c, List.mem_filter.2 ⟨List.mem_filter.2 ⟨hc, ?_⟩, ?_⟩, rfl⟩
  · simpa using hne
  · simp [hf]

theorem not_mem_broadcast_members (st : Registry) (r : String) (msg : OutMsg)
    (excl : Option Session) (fails : Session → Bool) (l : List Session)
    (h : lookup st r = some l) (k : Session) (hne : some k ≠ excl)
    (hf : fails k = true) : k ∉ members (broadcast r msg excl fails st).1 r := by
  rw [broadcast_eq st r msg excl fails l h]
  intro hmem
  rw [members_foldl_disconnect] at hmem
  have h0 := List.count_pos_iff.2 hmem
  rw [count_foldl_erase, members_of_lookup st r l h,
    List.count_filter hf, List.count_filter (by simpa using hne)] at h0
  omega

/-- C2: a send failure during a broadcast is isolated to the failing session:
every non-excluded session whose send succeeds still gets the message, and
every non-excluded session whose send fails is removed from the registry by the
broadcast's cleanup. -/
theorem broadcast_failure_isolation (st : Registry) (r : String) (msg : OutMsg)
    (excl : Option Session) (fails : Session → Bool) (l : List Session)
    (h : lookup st r = some l) :
    (∀ c ∈ l, some c ≠ excl → fails c = false →
        (c, msg) ∈ (broadcast r msg excl fails st).2) ∧
    (∀ k ∈ l, some k ≠ excl → fails k = true →
        k ∉ members (broadcast r msg excl fails st).1 r) :=
  ⟨fun c hc hne hf => mem_broadcast_sends st r msg excl fails l h c hc hne hf,
   fun k _ hne hf => not_mem_broadcast_members st r msg excl fails l h k hne hf⟩

/-- C2 witness: in room "a" with sessions 1, 2, 3, broadcasting with no exclusion
while session 2's send fails still delivers to 1 and 3, and removes 2. -/
theorem broadcast_failure_isolation_witness :
    ((1, OutMsg.errorMsg "m") ∈
        (broadcast "a" (OutMsg.errorMsg "m") none (fun c => c == 2) [("a", [1, 2, 3])]).2 ∧
      (3, OutMsg.errorMsg "m") ∈
        (broadcast "a" (OutMsg.errorMsg "m") none (fun c => c == 2) [("a", [1, 2, 3])]).2) ∧
    2 ∉ members (broadcast "a" (OutMsg.errorMsg "m") none (fun c => c == 2)
        [("a", [1, 2, 3])]).1 "a" := by
  have h := broadcast_failure_isolation [("a", [1, 2, 3])] "a" (OutMsg.errorMsg "m")
    none (fun c => c == 2) [1, 2, 3] rfl
  exact ⟨⟨h.1 1 (by decide) (by decide) (by decide), h.1 3 (by decide) (by decide) (by decide)⟩,
    h.2 2 (by decide) (by decide) (by decide)⟩

/-- C4: a broadcast that excludes a session never produces a delivery to that
session, whatever the room's membership and whichever sends fail. -/
theorem broadcast_never_delivers_to_excluded (st : Registry) (r : String)
    (msg om : OutMsg) (e : Session) (fails : Session → Bool) :
    (e, om) ∉ (broadcast r msg (some e) fails st).2 := by
  cases h : lookup st r with
  | none => simp [broadcast, h]
  | some l =>
      rw [broadcast_eq st r msg (some e) fails l h]
      intro hmem
      rcases List.mem_map.1 hmem with ⟨c, hc, hce⟩
      have hc1 : c ≠ e := by
        have := (List.mem_filter.1 (List.mem_filter.1 hc).1).2
        simpa using this
      exact hc1 (congrArg Prod.fst hce)

/-- C4 witness: with sessions 1 and 2 in room "a" and session 2's send failing,
the excluded session 1 gets no delivery. -/
theorem broadcast_never_delivers_to_excluded_witness :
    (1, OutMsg.errorMsg "m") ∉
      (broadcast "a" (OutMsg.errorMsg "m") (some 1) (fun c => c == 2) [("a", [1, 2])]).2 :=
  broadcast_never_delivers_to_excluded [("a", [1, 2])] "a" (OutMsg.errorMsg "m")
    (OutMsg.errorMsg "m") 1 (fun c => c == 2)

/-! ### Registry lifecycle claims -/

/-- C1: over every sequence of connect/disconnect/broadcast operations from the
manager's empty initial dictionary, a room key is present in
`active_connections` iff at least one session is registered for it; and
connecting then disconnecting the only session of a previously absent room
restores the registry exactly (the lazily created entry is eagerly deleted). -/
theorem room_entry_iff_nonempty :
    (∀ (ops : List Op) (r : String),
        (lookup (runOps ops) r).isSome ↔ members (runOps ops) r ≠ []) ∧
    (∀ (st : Registry) (r : String) (ws : Session),
        lookup st r = none → disconnect r ws (connect r ws st) = st) := by
  constructor
  · intro ops r
    constructor
    · intro h
      cases hl : lookup (runOps ops) r with
      | none => simp [hl] at h
      | some l =>
          have hm : (r, l) ∈ runOps ops := lookup_mem _ _ _ hl
          have hne := entriesNonempty_runOps ops (r, l) hm
          simpa [members, hl] using hne
    · exact fun h => lookup_isSome_of_members_ne _ _ h
  · intro st r ws hnone
    have hc : connect r ws st = st ++ [(r, [ws])] := by
      simp [connect, hnone, setEntry_of_lookup_none st r _ hnone]
    rw [hc]
    have hl : lookup (st ++ [(r, [ws])]) r = some [ws] := by
      rw [lookup_append_of_none st _ r hnone]; simp [lookup]
    have he : ([ws] : List Session).erase ws = [] := by simp
    rw [disconnect_eq _ r ws [ws] hl, if_pos he, eraseEntry_append,
      eraseEntry_of_lookup_none st r hnone]
    simp [eraseEntry]

/-- C1 witness: after a single connect the entry for "a" exists iff nonempty, and
a connect/disconnect pair on the empty registry leaves it empty. -/
theorem room_entry_iff_nonempty_witness :
    ((lookup (runOps [Op.connectOp "a" 1]) "a").isSome ↔
        members (runOps [Op.connectOp "a" 1]) "a" ≠ []) ∧
    disconnect "a" 1 (connect "a" 1 []) = [] :=
  ⟨room_entry_iff_nonempty.1 [Op.connectOp "a" 1] "a",
    room_entry_iff_nonempty.2 [] "a" 1 rfl⟩

theorem disconnect_not_mem_eq (st : Registry) (r : String) (ws : Session)
    (hEN : EntriesNonempty st) (h : ws ∉ members st r) : disconnect r ws st = st := by
  cases hl : lookup st r with
  | none => simp [disconnect, hl]
  | some l =>
      have hwl : ws ∉ l := by rw [← members_of_lookup st r l hl]; exact h
      have hne : l ≠ [] := hEN (r, l) (lookup_mem st r l hl)
      rw [disconnect_eq st r ws l hl, List.erase_of_not_mem hwl, if_neg hne,
        setEntry_of_lookup_eq st r l hl]

/-- C8 amended: on a registry with no empty entries (which is every reachable
one), disconnecting a session that is not a member of the room changes nothing;
consequently two disconnects equal one whenever the session is registered at
most once in the room — but not when it is registered twice (see the
counterexample); and whenever the removal empties the member list the room
entry is deleted. -/
theorem disconnect_idempotent_amended (st : Registry) (r : String) (ws : Session) :
    (EntriesNonempty st → ws ∉ members st r → disconnect r ws st = st) ∧
    (EntriesNonempty st → (members st r).count ws ≤ 1 →
        disconnect r ws (disconnect r ws st) = disconnect r ws st) ∧
    (∀ l, lookup st r = some l → l.erase ws = [] →
        lookup (disconnect r ws st) r = none) := by
  refine ⟨fun hEN h => disconnect_not_mem_eq st r ws hEN h,
    fun hEN hcount => ?_, fun l hl he => ?_⟩
  · apply disconnect_not_mem_eq _ r ws (entriesNonempty_disconnect st r ws hEN)
    rw [members_disconnect_self]
    intro hmem
    have h1 := List.count_pos_iff.2 hmem
    rw [List.count_erase_self] at h1
    omega
  · rw [disconnect_eq st r ws l hl, if_pos he]
    exact lookup_eraseEntry_self st r

/-- C8 witness: disconnecting the non-member 2 from room "a" is a no-op, two
disconnects of the singly registered 1 equal one, and removing the only session
deletes the entry. -/
theorem disconnect_idempotent_amended_witness :
    disconnect "a" 2 [("a", [1])] = [("a", [1])] ∧
    disconnect "a" 1 (disconnect "a" 1 [("a", [1, 3])]) =
      disconnect "a" 1 [("a", [1, 3])] ∧
    lookup (disconnect "a" 1 [("a", [1])]) "a" = none :=
  ⟨(disconnect_idempotent_amended [("a", [1])] "a" 2).1
      (by unfold EntriesNonempty; decide) (by decide),
    (disconnect_idempotent_amended [("a", [1, 3])] "a" 1).2.1
      (by unfold EntriesNonempty; decide) (by decide),
    (disconnect_idempotent_amended [("a", [1])] "a" 1).2.2 [1] rfl (by decide)⟩

/-- C8 counterexample: with session 1 registered twice in room "a" (reachable by
two connects), a second disconnect removes a second occurrence, so disconnect
twice differs from disconnect once. -/
theorem disconnect_twice_counterexample :
    disconnect "a" 1 (disconnect "a" 1 [("a", [1, 1])]) ≠
      disconnect "a" 1 [("a", [1, 1])] := by
  decide

/-- C9: room membership is a multiset: connecting an already-registered session
adds a second occurrence, and one disconnect removes exactly one occurrence,
leaving the session still registered and the room entry in place. -/
theorem connect_multiset_semantics (st : Registry) (r : String) (ws : Session)
    (h : ws ∈ members st r) :
    (members (connect r ws st) r).count ws = (members st r).count ws + 1 ∧
    (members (disconnect r ws (connect r ws st)) r).count ws =
      (members st r).count ws ∧
    ws ∈ members (disconnect r ws (connect r ws st)) r ∧
    (lookup (disconnect r ws (connect r ws st)) r).isSome := by
  have hconn := members_connect_self st r ws
  have hc1 : (members (connect r ws st) r).count ws = (members st r).count ws + 1 := by
    rw [hconn]; simp
  have hc2 : (members (disconnect r ws (connect r ws st)) r).count ws
      = (members st r).count ws := by
    rw [members_disconnect_self, hconn, List.count_erase_self, List.count_append]
    simp
  have hpos := List.count_pos_iff.2 h
  have hmem : ws ∈ members (disconnect r ws (connect r ws st)) r := by
    rw [← List.count_pos_iff, hc2]; exact hpos
  refine ⟨hc1, hc2, hmem, lookup_isSome_of_members_ne _ _ ?_⟩
  intro hnil
  rw [hnil] at hmem
  simp at hmem

/-- C9 witness: session 1, already in room "a", connects again and then
disconnects once; it is still registered and the entry remains. -/
theorem connect_multiset_semantics_witness :
    (members (connect "a" 1 [("a", [1])]) "a").count 1 =
      (members [("a", [1])] "a").count 1 + 1 ∧
    (members (disconnect "a" 1 (connect "a" 1 [("a", [1])])) "a").count 1 =
      (members [("a", [1])] "a").count 1 ∧
    1 ∈ members (disconnect "a" 1 (connect "a" 1 [("a", [1])])) "a" ∧
    (lookup (disconnect "a" 1 (connect "a" 1 [("a", [1])])) "a").isSome :=
  connect_multiset_semantics [("a", [1])] "a" 1 (by decide)

/-! ### Endpoint dispatch claims -/

/-- C3: a received `code_update` with `code` present whose store update succeeds
is re-broadcast verbatim: every other session in the room whose send succeeds
receives a `code_update` carrying the sender's `code` and `timestamp` values
unchanged. -/
theorem code_update_roundtrip_verbatim (st : Registry) (r : String) (sender : Session)
    (o : JObj) (m : WSMessage) (c : String) (fails : Session → Bool)
    (recipient : Session) (l : List Session)
    (hv : validateMsg o = some m) (ht : m.type = "code_update") (hc : m.code = some c)
    (hl : lookup st r = some l) (hr : recipient ∈ l) (hrs : recipient ≠ sender)
    (hf : fails recipient = false) :
    (recipient, OutMsg.codeUpdate c m.timestamp) ∈
      (handleMessage r sender (.jsonObject o) .ok fails st).sends := by
  simp only [handleMessage, hv, ht, hc, if_pos]
  exact mem_broadcast_sends st r (OutMsg.codeUpdate c m.timestamp) (some sender)
    fails l hl recipient hr (by simpa using hrs) hf

/-- C3 witness: sender 1 sends `code = "x=1"`, `timestamp = 42` in room "a";
session 2 receives exactly that `code_update`. -/
theorem code_update_roundtrip_verbatim_witness :
    (2, OutMsg.codeUpdate "x=1" (some 42)) ∈
      (handleMessage "a" 1
        (.jsonObject [("type", .jstr "code_update"), ("code", .jstr "x=1"),
          ("timestamp", .jint 42)])
        .ok (fun _ => false) [("a", [1, 2])]).sends :=
  code_update_roundtrip_verbatim [("a", [1, 2])] "a" 1
    [("type", .jstr "code_update"), ("code", .jstr "x=1"), ("timestamp", .jint 42)]
    ⟨"code_update", some "x=1", some 42, none, none⟩ "x=1" (fun _ => false) 2 [1, 2]
    rfl rfl rfl rfl (by decide) (by decide) rfl

/-- C5: when the room-existence check fails, the connection is refused with
close code 4004 and reason "Room not found", no session is registered, and a
room id absent from the registry stays absent. -/
theorem room_not_found_refusal (r : String) (ws : Session) (st : Registry) :
    handleConnect false r ws st = ⟨st, some (4004, "Room not found"), false⟩ ∧
    (lookup st r = none → lookup (handleConnect false r ws st).st r = none) := by
  exact ⟨rfl, fun h => by simpa [handleConnect] using h⟩

/-- C5 witness: connecting to the nonexistent room "nonexist1" on an empty
registry is refused and leaves no entry. -/
theorem room_not_found_refusal_witness :
    handleConnect false "nonexist1" 1 [] =
      ⟨[], some (4004, "Room not found"), false⟩ ∧
    lookup (handleConnect false "nonexist1" 1 []).st "nonexist1" = none :=
  ⟨(room_not_found_refusal "nonexist1" 1 []).1,
    (room_not_found_refusal "nonexist1" 1 []).2 rfl⟩

/-- C6: a `code_update` whose `code` field is absent yields exactly one send —
an error reply to the sender — zero `update_room_code` calls, an unchanged
registry, and a loop that keeps running. -/
theorem code_update_missing_code (st : Registry) (r : String) (sender : Session)
    (o : JObj) (m : WSMessage) (store : StoreBehavior) (fails : Session → Bool)
    (hv : validateMsg o = some m) (ht : m.type = "code_update") (hc : m.code = none) :
    handleMessage r sender (.jsonObject o) store fails st =
      ⟨st, [(sender, .errorMsg "Missing 'code' field in code_update message")],
        0, false⟩ := by
  simp [handleMessage, hv, ht, hc]

/-- C6 witness: a `code_update` frame with no `code` field from sender 1 in room
"a" gets only the missing-field error reply and no store call. -/
theorem code_update_missing_code_witness :
    handleMessage "a" 1 (.jsonObject [("type", .jstr "code_update")])
        .ok (fun _ => false) [("a", [1, 2])] =
      ⟨[("a", [1, 2])],
        [(1, .errorMsg "Missing 'code' field in code_update message")], 0, false⟩ :=
  code_update_missing_code [("a", [1, 2])] "a" 1 [("type", .jstr "code_update")]
    ⟨"code_update", none, none, none, none⟩ .ok (fun _ => false) rfl rfl rfl

/-- C7 counterexample: a frame that is valid JSON but not a JSON object (e.g.
the array `[1, 2]`) makes `WebSocketMessage(**...)` raise `TypeError`, which
only the outer `except Exception` catches: the loop ends, the sender is
disconnected (registry changed), and no error reply is sent — contrary to the
claim that every malformed payload gets a local error reply with the loop
continuing and the registry unchanged. -/
theorem malformed_payload_counterexample :
    (handleMessage "a" 1 Payload.jsonNonObject StoreBehavior.ok (fun _ => false)
        [("a", [1])]).closed = true ∧
    (handleMessage "a" 1 Payload.jsonNonObject StoreBehavior.ok (fun _ => false)
        [("a", [1])]).st ≠ [("a", [1])] ∧
    (handleMessage "a" 1 Payload.jsonNonObject StoreBehavior.ok (fun _ => false)
        [("a", [1])]).sends = [] := by
  refine ⟨rfl, ?_, rfl⟩
  decide

/-- C7 amended: a payload that fails JSON parsing, or parses to a JSON object
that fails schema validation, gets an error reply to the sender only, with the
registry unchanged and the loop continuing; a payload that parses to a
non-object JSON value instead ends the loop through the outer exception
handler. -/
theorem malformed_payload_local_error (st : Registry) (r : String) (sender : Session)
    (store : StoreBehavior) (fails : Session → Bool) :
    handleMessage r sender .invalidJson store fails st =
      ⟨st, [(sender, .errorMsg "Invalid JSON format")], 0, false⟩ ∧
    (∀ o : JObj, validateMsg o = none →
        handleMessage r sender (.jsonObject o) store fails st =
          ⟨st, [(sender, .errorMsg "Invalid message format")], 0, false⟩) := by
  exact ⟨rfl, fun o hv => by simp [handleMessage, hv]⟩

/-- C7 witness: invalid JSON from sender 1 and the unvalidatable empty object
both get a local error reply with the loop continuing. -/
theorem malformed_payload_local_error_witness :
    handleMessage "a" 1 .invalidJson .ok (fun _ => false) [("a", [1])] =
      ⟨[("a", [1])], [(1, .errorMsg "Invalid JSON format")], 0, false⟩ ∧
    handleMessage "a" 1 (.jsonObject []) .ok (fun _ => false) [("a", [1])] =
      ⟨[("a", [1])], [(1, .errorMsg "Invalid message format")], 0, false⟩ :=
  ⟨(malformed_payload_local_error [("a", [1])] "a" 1 .ok (fun _ => false)).1,
    (malformed_payload_local_error [("a", [1])] "a" 1 .ok (fun _ => false)).2 [] rfl⟩

/-! ### Schema tolerance of extra fields -/

/-- The five field names declared by `WebSocketMessage`. -/
def isKnownKey (k : String) : Bool :=
  k = "type" || k = "code" || k = "timestamp" || k = "message" || k = "roomId"

theorem getField_append_unknown (base extra : JObj) (k : String)
    (hk : isKnownKey k = true) (hex : ∀ p ∈ extra, isKnownKey p.1 = false) :
    getField (base ++ extra) k = getField base k := by
  have hextra : extra.find? (fun p => decide (p.1 = k)) = none := by
    rw [List.find?_eq_none]
    intro p hp
    simp only [decide_eq_true_eq]
    intro hpk
    have h1 := hex p hp
    rw [hpk, hk] at h1
    simp at h1
  unfold getField
  rw [List.find?_append, hextra]
  cases base.find? (fun p => decide (p.1 = k)) <;> simp

theorem validateMsg_append_unknown (base extra : JObj)
    (hex : ∀ p ∈ extra, isKnownKey p.1 = false) :
    validateMsg (base ++ extra) = validateMsg base := by
  unfold validateMsg
  rw [getField_append_unknown base extra "type" (by decide) hex,
    getField_append_unknown base extra "code" (by decide) hex,
    getField_append_unknown base extra "timestamp" (by decide) hex,
    getField_append_unknown base extra "message" (by decide) hex,
    getField_append_unknown base extra "roomId" (by decide) hex]

/-- C10: a JSON object whose "type" field is a string and whose declared
optional fields are well-typed validates against the schema whatever other
fields it carries, and the resulting message's type is the string sent; in
particular appending fields with undeclared keys never changes the validation
result. -/
theorem extra_fields_ignored :
    (∀ (o : JObj) (t : String) (c msgf rid : Option String) (ts : Option Int),
        getField o "type" = some (.jstr t) →
        optStrField (getField o "code") = some c →
        optIntField (getField o "timestamp") = some ts →
        optStrField (getField o "message") = some msgf →
        optStrField (getField o "roomId") = some rid →
        validateMsg o = some ⟨t, c, ts, msgf, rid⟩) ∧
    (∀ (base extra : JObj) (m : WSMessage),
        (∀ p ∈ extra, isKnownKey p.1 = false) →
        validateMsg base = some m → validateMsg (base ++ extra) = some m) := by
  constructor
  · intro o t c msgf rid ts htype hcode hts hmsg hrid
    simp [validateMsg, htype, hcode, hts, hmsg, hrid]
  · intro base extra m hex hv
    rw [validateMsg_append_unknown base extra hex, hv]

/-- C10 witness: an object with a string type and a junk field validates; and
appending a junk field to a validating object keeps its validation result. -/
theorem extra_fields_ignored_witness :
    validateMsg [("type", .jstr "ping"), ("junk", .jother)] =
      some ⟨"ping", none, none, none, none⟩ ∧
    validateMsg ([("type", .jstr "code_update"), ("code", .jstr "x")] ++
        [("extra1", .jint 7)]) =
      some ⟨"code_update", some "x", none, none, none⟩ :=
  ⟨extra_fields_ignored.1 [("type", .jstr "ping"), ("junk", .jother)]
      "ping" none none none none rfl rfl rfl rfl rfl,
    extra_fields_ignored.2 [("type", .jstr "code_update"), ("code", .jstr "x")]
      [("extra1", .jint 7)] ⟨"code_update", some "x", none, none, none⟩
      (by decide) rfl⟩

end CollabWS
